import Mathlib

/-!
Shallow embedding of the offline-resilient POS subsystem of the `selis`
repository: the PWA pending-operation queue (`PwaContext`), the POS
transaction engine (`POSInterface`), the per-store stock cycle
(`StockControl`, localStorage variant), and the multi-store stock cycle
backed by the `store_stocks` table (`StockControl`, supabase variant).

React `useState` values become record fields; an event handler becomes a
function from state to state.  `localStorage` keys written by the handlers
become mirror fields (`stored…`).  Toast notifications are accumulated in a
`toasts` log.  Wall-clock reads (`Date.now()`, `new Date().toISOString()`)
are threaded as an explicit `now : Nat` parameter.  JS numbers holding
prices, stocks and quantities are modelled as `Int` (subtraction in the
source is plain JS subtraction, which can go below zero).
-/

/-- Connectivity signal of the Network Status Monitor (`PwaContext`). -/
inductive NetworkStatus
  | online
  | offline
deriving DecidableEq, Repr

/-- The two enumerated payment methods. -/
inductive PaymentMethod
  | cash
  | qris
deriving DecidableEq, Repr

/-- A menu item as displayed by `POSInterface` (part_003). -/
structure MenuItem where
  id : String
  name : String
  description : String
  cashPrice : Int
  qrisPrice : Int
  categoryId : String
  categoryName : String
  stock : Int
deriving DecidableEq, Repr

/-- A cart line: `interface CartItem extends MenuItem { quantity }`. -/
structure CartItem extends MenuItem where
  quantity : Int
deriving DecidableEq, Repr

/-- An immutable transaction record built by `handleCheckout`. -/
structure Transaction where
  id : String
  items : List CartItem
  total : Int
  paymentMethod : PaymentMethod
  timestamp : Nat
  storeId : String
  cashierId : String
deriving DecidableEq, Repr

/-- A stock item of the manager's `StockControl` screen (part_001). -/
structure StockItem where
  id : String
  name : String
  currentStock : Int
  minimumStock : Int
  initialStock : Int
deriving DecidableEq, Repr

namespace Manager

/-- A stock item of the multi-store `StockControl` screen (part_002); this
variant of the interface also carries the owning store id. -/
structure StockItem where
  id : String
  name : String
  currentStock : Int
  minimumStock : Int
  initialStock : Int
  storeId : String
deriving DecidableEq, Repr

/-- A row of the remote `store_stocks` table: one (store, stock item,
selling date) record with its quantity and active flag. -/
structure StoreStock where
  storeId : String
  stockItemId : String
  quantity : Int
  isActive : Bool
  sellingDate : String
deriving DecidableEq, Repr

end Manager

/-- Toast notifications surfaced by the handlers, logged in order. -/
inductive Toast
  | syncComplete (count : Nat)
  | syncFailed
  | outOfStock (name : String)
  | stockLimitReached (stock : Int) (name : String)
  | transactionBlocked
  | emptyCart
  | transactionComplete (total : Int)
  | sellingStarted
  | sellingEnded
  | invalidStockValue
  | storeNotSelected
  | errorStartSelling
  | errorEndSelling
deriving DecidableEq, Repr

/-- Payload (`data` field) of a pending operation, per operation kind. -/
inductive OpData
  | transactionData (t : Transaction)
  | stockUpdate (items : List (String × Int))
  | startSellingData (storeId branchId : String) (items : List StockItem) (ts : Nat)
  | endSellingData (storeId branchId : String) (ts : Nat)
  | stockItemUpdate (storeId branchId itemId : String) (newStock : Int) (ts : Nat)
  | holidayModeUpdate (storeId branchId : String) (enabled : Bool) (ts : Nat)
  | startSellingStore (storeId branchId : String) (items : List Manager.StockItem) (ts : Nat)
deriving DecidableEq, Repr

/-- A queued mutation intent.  `timestamp` is the top-level enqueue stamp
that `addPendingOperation` writes; callers pass entries without it. -/
structure PendingOp where
  type : String
  data : OpData
  timestamp : Option Nat
deriving DecidableEq, Repr

/-- State of `PwaProvider` (part_006): the connectivity signal, the
pending-operation queue held in React state, its mirror under the
`pendingOperations` localStorage key (written by the effect at lines
112-114, which runs after every queue change and before the next event),
and the toast log. -/
structure PwaState where
  networkStatus : NetworkStatus
  pendingOperations : List PendingOp
  storedOps : List PendingOp
  toasts : List Toast
deriving DecidableEq, Repr

/-- `{ ...operation, timestamp: new Date().toISOString() }`: the spread
copies every field and the trailing `timestamp:` entry overwrites any
top-level timestamp the caller supplied. -/
def stampOp (op : PendingOp) (now : Nat) : PendingOp :=
  { op with timestamp := some now }

/-- `addPendingOperation` (part_006 lines 130-132): append the stamped
entry at the tail; the persistence effect then mirrors the new queue to
localStorage. -/
def addPendingOperation (op : PendingOp) (now : Nat) (s : PwaState) : PwaState :=
  let q := s.pendingOperations ++ [stampOp op now]
  { s with pendingOperations := q, storedOps := q }

/-- `clearPendingOperations` (part_006 lines 160-162): empty the queue;
the persistence effect mirrors the empty queue. -/
def clearPendingOperations (s : PwaState) : PwaState :=
  { s with pendingOperations := [], storedOps := [] }

/-- `processPendingOperations` (part_006 lines 134-158): return early when
offline or the queue is empty; otherwise the body never contacts a remote
system — it emits the "Sync complete" toast (counting the queued entries)
and batch-clears the queue.  The `catch` branch is unreachable because
nothing in the `try` block can throw. -/
def processPendingOperations (s : PwaState) : PwaState :=
  if s.networkStatus = NetworkStatus.offline ∨ s.pendingOperations = [] then s
  else
    clearPendingOperations
      { s with toasts := s.toasts ++ [Toast.syncComplete s.pendingOperations.length] }

/-- Mount effect of `PwaProvider` (part_006 lines 98-102): a fresh page
load re-reads the queue from the `pendingOperations` localStorage key. -/
def reloadPwa (s : PwaState) : PwaState :=
  { s with pendingOperations := s.storedOps }

/-- A sample queued operation used for concrete evaluations. -/
def sampleOp1 : PendingOp :=
  { type := "CREATE_TRANSACTION"
    data := OpData.transactionData
      { id := "TR-1", items := [], total := 0, paymentMethod := PaymentMethod.cash
        timestamp := 1, storeId := "1", cashierId := "2" }
    timestamp := none }

/-- A second sample queued operation. -/
def sampleOp2 : PendingOp :=
  { type := "UPDATE_STOCK"
    data := OpData.stockUpdate [("1", 3)]
    timestamp := none }

/-- Route visible after a handler runs; `handleCheckout` ends by navigating
to the transaction-history page. -/
inductive Page
  | pos
  | history (transactionId : String)
deriving DecidableEq, Repr

/-- State of `POSInterface` (part_003): the menu with live stock, the
transient cart, the selected payment method, the store's holiday-mode flag
(read from localStorage at mount), the `transactions` and `menuItems`
localStorage collections, the PWA provider state, the user context, the
toast log and the current route. -/
structure PosState where
  menuItems : List MenuItem
  cart : List CartItem
  paymentMethod : PaymentMethod
  isHolidayMode : Bool
  transactions : List Transaction
  storedMenuItems : List MenuItem
  pwa : PwaState
  storeId : String
  cashierId : String
  toasts : List Toast
  page : Page
deriving DecidableEq, Repr

/-- `addToCart` (part_003 lines 449-482): reject items with no stock;
increment an existing line only while below the item's stock; otherwise
insert a fresh line with quantity 1. -/
def addToCart (item : MenuItem) (s : PosState) : PosState :=
  if item.stock ≤ 0 then
    { s with toasts := s.toasts ++ [Toast.outOfStock item.name] }
  else
    match s.cart.find? (fun c => c.id == item.id) with
    | some existing =>
      if item.stock ≤ existing.quantity then
        { s with toasts := s.toasts ++ [Toast.stockLimitReached item.stock item.name] }
      else
        { s with cart := s.cart.map (fun c =>
            if c.id == item.id then { c with quantity := c.quantity + 1 } else c) }
    | none =>
      { s with cart := s.cart ++ [{ item with quantity := 1 }] }

/-- `removeFromCart` (part_003 lines 510-512). -/
def removeFromCart (itemId : String) (s : PosState) : PosState :=
  { s with cart := s.cart.filter (fun c => c.id != itemId) }

/-- `updateCartItemQuantity` (part_003 lines 484-508): a non-positive
quantity removes the line; when the menu holds the item and the requested
quantity exceeds its stock the call fails without touching the cart;
otherwise (including when the item id is absent from the menu, where the
source skips the stock check) the matching line's quantity is overwritten. -/
def updateCartItemQuantity (itemId : String) (newQuantity : Int) (s : PosState) : PosState :=
  if newQuantity ≤ 0 then removeFromCart itemId s
  else
    match s.menuItems.find? (fun m => m.id == itemId) with
    | some item =>
      if item.stock < newQuantity then
        { s with toasts := s.toasts ++ [Toast.stockLimitReached item.stock item.name] }
      else
        { s with cart := s.cart.map (fun c =>
            if c.id == itemId then { c with quantity := newQuantity } else c) }
    | none =>
      { s with cart := s.cart.map (fun c =>
          if c.id == itemId then { c with quantity := newQuantity } else c) }

/-- Unit price of a cart line for the selected payment method. -/
def linePrice (pm : PaymentMethod) (c : CartItem) : Int :=
  match pm with
  | PaymentMethod.cash => c.cashPrice
  | PaymentMethod.qris => c.qrisPrice

/-- `calculateTotal` (part_003 lines 518-523). -/
def calculateTotal (s : PosState) : Int :=
  s.cart.foldl (fun total c => total + linePrice s.paymentMethod c * c.quantity) 0

/-- Stock update applied by checkout to one menu item: decrement by the
quantity of the matching cart line, if any (part_003 lines 557-566). -/
def checkoutStockUpdate (cart : List CartItem) (item : MenuItem) : MenuItem :=
  match cart.find? (fun c => c.id == item.id) with
  | some cartItem => { item with stock := item.stock - cartItem.quantity }
  | none => item

/-- `handleCheckout` (part_003 lines 525-612): blocked in holiday mode and
on an empty cart, each without any mutation.  Otherwise it builds the
transaction from the cart snapshot, decrements the stock of every item
matched by a cart line, persists the transaction and updated menu, enqueues
a create-transaction then an update-stock pending operation when offline,
updates the live menu state, toasts, and navigates to the history page.
The final navigation unmounts `POSInterface`; `cart` is transient component
state initialised to `[]` and never persisted, so the cart observable after
checkout is empty — the embedding represents the unmount by resetting
`cart` to its initial value. -/
def handleCheckout (now : Nat) (s : PosState) : PosState :=
  if s.isHolidayMode then
    { s with toasts := s.toasts ++ [Toast.transactionBlocked] }
  else if s.cart = [] then
    { s with toasts := s.toasts ++ [Toast.emptyCart] }
  else
    let transaction : Transaction :=
      { id := "TR-" ++ toString now
        items := s.cart
        total := calculateTotal s
        paymentMethod := s.paymentMethod
        timestamp := now
        storeId := s.storeId
        cashierId := s.cashierId }
    let updatedMenuItems := s.menuItems.map (checkoutStockUpdate s.cart)
    let s1 := { s with
      transactions := s.transactions ++ [transaction]
      storedMenuItems := updatedMenuItems }
    let createOp : PendingOp :=
      { type := "CREATE_TRANSACTION"
        data := OpData.transactionData transaction
        timestamp := none }
    let updateOp : PendingOp :=
      { type := "UPDATE_STOCK"
        data := OpData.stockUpdate (s.cart.map (fun c => (c.id, c.quantity)))
        timestamp := none }
    let s2 :=
      if s1.pwa.networkStatus = NetworkStatus.offline then
        { s1 with pwa := addPendingOperation updateOp now (addPendingOperation createOp now s1.pwa) }
      else s1
    { s2 with
      menuItems := updatedMenuItems
      toasts := s2.toasts ++ [Toast.transactionComplete (calculateTotal s)]
      page := Page.history transaction.id
      cart := [] }

/-- Concrete POS state used by the checkout witnesses: holiday mode off,
one Iced Coffee in the cart, stock 10 and 8 on the two menu items. -/
def posEx : PosState :=
  { menuItems :=
      [ { id := "1", name := "Iced Coffee", description := "Cold brewed coffee with ice"
          cashPrice := 20000, qrisPrice := 22000, categoryId := "1", categoryName := "Drinks"
          stock := 10 }
      , { id := "3", name := "Sandwich", description := "Chicken sandwich with veggies"
          cashPrice := 25000, qrisPrice := 27500, categoryId := "2", categoryName := "Food"
          stock := 8 } ]
    cart :=
      [ { id := "1", name := "Iced Coffee", description := "Cold brewed coffee with ice"
          cashPrice := 20000, qrisPrice := 22000, categoryId := "1", categoryName := "Drinks"
          stock := 10, quantity := 3 } ]
    paymentMethod := PaymentMethod.cash
    isHolidayMode := false
    transactions := []
    storedMenuItems := []
    pwa := { networkStatus := NetworkStatus.online, pendingOperations := []
             storedOps := [], toasts := [] }
    storeId := "1"
    cashierId := "2"
    toasts := []
    page := Page.pos }

/-- The concrete POS state with the connectivity signal flipped offline. -/
def posExOffline : PosState :=
  { posEx with pwa := { posEx.pwa with networkStatus := NetworkStatus.offline } }

/-- One user-issued cart call: an add-to-cart tap carrying the rendered
menu item, or a quantity edit. -/
inductive CartOp
  | add (item : MenuItem)
  | update (itemId : String) (newQuantity : Int)
deriving DecidableEq, Repr

/-- Dispatch one cart call to the corresponding handler. -/
def applyCartOp (s : PosState) : CartOp → PosState
  | CartOp.add item => addToCart item s
  | CartOp.update itemId q => updateCartItemQuantity itemId q s

/-- Run a sequence of cart calls in order. -/
def applyCartOps (s : PosState) (ops : List CartOp) : PosState :=
  ops.foldl applyCartOp s

/-- Cart well-formedness relative to the menu: line ids are pairwise
distinct and each line's quantity is bounded by its menu item's stock. -/
def cartOk (menu : List MenuItem) (cart : List CartItem) : Prop :=
  (cart.map (fun c => c.id)).Nodup ∧
  ∀ c ∈ cart, ∃ m ∈ menu, m.id = c.id ∧ c.quantity ≤ m.stock

/-- The concrete empty-cart POS state used by the C3 witness. -/
def posExC3 : PosState := { posEx with cart := [] }

/-- The concrete call sequence used by the C3 witness: add the first menu
item twice, then set its quantity to 5. -/
def opsExC3 : List CartOp :=
  [ CartOp.add { id := "1", name := "Iced Coffee", description := "Cold brewed coffee with ice"
                 cashPrice := 20000, qrisPrice := 22000, categoryId := "1"
                 categoryName := "Drinks", stock := 10 }
  , CartOp.add { id := "1", name := "Iced Coffee", description := "Cold brewed coffee with ice"
                 cashPrice := 20000, qrisPrice := 22000, categoryId := "1"
                 categoryName := "Drinks", stock := 10 }
  , CartOp.update "1" 5 ]

/-- State of the manager's `StockControl` screen in its localStorage
variant (part_001): the per-store stock list, the per-store selling flag,
their localStorage mirrors (`stockItems-storeId`, `sellingStarted-storeId`),
the PWA provider state, the user context and the toast log. -/
structure StockControlState where
  stockItems : List StockItem
  isSellingStarted : Bool
  storedStockItems : Option (List StockItem)
  storedSellingStarted : Bool
  pwa : PwaState
  storeId : String
  branchId : String
  toasts : List Toast
deriving DecidableEq, Repr

/-- `handleStartSelling` (part_001 lines 247-280): set every item's current
stock to its configured initial stock, mark selling started, persist both,
enqueue a START_SELLING operation carrying the full snapshot when offline,
and toast. -/
def handleStartSelling (now : Nat) (s : StockControlState) : StockControlState :=
  let updatedItems := s.stockItems.map (fun it => { it with currentStock := it.initialStock })
  let s1 := { s with
    stockItems := updatedItems
    isSellingStarted := true
    storedStockItems := some updatedItems
    storedSellingStarted := true }
  let startOp : PendingOp :=
    { type := "START_SELLING"
      data := OpData.startSellingData s.storeId s.branchId updatedItems now
      timestamp := none }
  let s2 :=
    if s1.pwa.networkStatus = NetworkStatus.offline then
      { s1 with pwa := addPendingOperation startOp now s1.pwa }
    else s1
  { s2 with toasts := s2.toasts ++ [Toast.sellingStarted] }

/-- `handleEndSelling` (part_001 lines 282-314): zero every item's current
stock, clear the selling flag, persist both, enqueue an END_SELLING
operation when offline, and toast. -/
def handleEndSelling (now : Nat) (s : StockControlState) : StockControlState :=
  let updatedItems := s.stockItems.map (fun it => { it with currentStock := 0 })
  let s1 := { s with
    stockItems := updatedItems
    isSellingStarted := false
    storedStockItems := some updatedItems
    storedSellingStarted := false }
  let endOp : PendingOp :=
    { type := "END_SELLING"
      data := OpData.endSellingData s.storeId s.branchId now
      timestamp := none }
  let s2 :=
    if s1.pwa.networkStatus = NetworkStatus.offline then
      { s1 with pwa := addPendingOperation endOp now s1.pwa }
    else s1
  { s2 with toasts := s2.toasts ++ [Toast.sellingEnded] }

/-- Concrete stock-control state used by the C4 witness: two items holding
stale prior values 4 and 0. -/
def stockEx : StockControlState :=
  { stockItems :=
      [ { id := "1", name := "Iced Coffee", currentStock := 4, minimumStock := 5, initialStock := 10 }
      , { id := "2", name := "Hot Coffee", currentStock := 0, minimumStock := 5, initialStock := 15 } ]
    isSellingStarted := false
    storedStockItems := none
    storedSellingStarted := false
    pwa := { networkStatus := NetworkStatus.online, pendingOperations := []
             storedOps := [], toasts := [] }
    storeId := "1"
    branchId := "1"
    toasts := [] }

namespace Manager

/-- The `.eq('store_id', …).eq('stock_item_id', …).eq('selling_date', …)`
filter used by the per-item queries of `handleStartSelling`. -/
def rowMatches (storeId itemId today : String) (r : StoreStock) : Bool :=
  r.storeId == storeId && r.stockItemId == itemId && r.sellingDate == today

/-- Two rows sharing the (store, stock item, selling date) key. -/
def sameKey (a b : StoreStock) : Prop :=
  a.storeId = b.storeId ∧ a.stockItemId = b.stockItemId ∧ a.sellingDate = b.sellingDate

instance : DecidableRel sameKey := fun a b => by
  rw [sameKey]
  infer_instance

/-- At most one `store_stocks` row per (store, stock item, selling date)
key — the shape the screen's `maybeSingle` queries presume. -/
def dbUnique (db : List StoreStock) : Prop :=
  db.Pairwise (fun a b => ¬ sameKey a b)

/-- One loop iteration of `handleStartSelling` (part_002 lines 250-289) for
one stock item: `maybeSingle` the row for (store, item, today) — an error
(`none`) when several rows match — then either update the matching row to
quantity = initial stock and active, or insert a fresh row. -/
def upsertStoreStock (storeId today : String) (item : StockItem) (db : List StoreStock) :
    Option (List StoreStock) :=
  let found := db.filter (rowMatches storeId item.id today)
  if 2 ≤ found.length then none
  else if found.length = 1 then
    some (db.map (fun r =>
      if rowMatches storeId item.id today r then
        { r with quantity := item.initialStock, isActive := true }
      else r))
  else
    some (db ++ [{ storeId := storeId, stockItemId := item.id
                   quantity := item.initialStock, isActive := true, sellingDate := today }])

/-- The `for (const item of updatedItems)` loop: iterate the upserts,
stopping at the first error; a thrown error keeps the rows already written
(the remote writes are not transactional). -/
def startSellingLoop (storeId today : String) :
    List StockItem → List StoreStock → List StoreStock × Bool
  | [], db => (db, true)
  | item :: rest, db =>
    match upsertStoreStock storeId today item db with
    | none => (db, false)
    | some db2 => startSellingLoop storeId today rest db2

/-- State of the multi-store `StockControl` screen (part_002): the remote
`store_stocks` table, the stock items, the list of stores with selling
started, the selected store, today's date string, the user's branch, the
PWA provider state, the localStorage mirrors and the toast log. -/
structure ControlState where
  db : List StoreStock
  stockItems : List StockItem
  sellingStartedStores : List String
  selectedStoreId : String
  today : String
  branchId : String
  pwa : PwaState
  storedStockItems : List StockItem
  storedSellingStartedStores : List String
  toasts : List Toast
deriving DecidableEq, Repr

/-- `handleStartSelling` (part_002 lines 231-327): reject a missing store
selection; otherwise set every stock item's current stock to its initial
stock (tagging it with the selected store), upsert one `store_stocks` row
per item for today, and on success update local state, append the store id
to the selling-started list, persist the mirrors, enqueue a START_SELLING
operation when offline, and toast success; a failed upsert keeps the rows
already written, leaves local state alone and toasts an error.  There is no
already-active guard: a second call for the same store runs the same
re-initialisation again. -/
def handleStartSelling (now : Nat) (s : ControlState) : ControlState :=
  if s.selectedStoreId = "" then
    { s with toasts := s.toasts ++ [Toast.storeNotSelected] }
  else
    let updatedItems := s.stockItems.map (fun it =>
      { it with currentStock := it.initialStock, storeId := s.selectedStoreId })
    let result := startSellingLoop s.selectedStoreId s.today updatedItems s.db
    if result.2 then
      let startOp : PendingOp :=
        { type := "START_SELLING"
          data := OpData.startSellingStore s.selectedStoreId s.branchId
            (updatedItems.filter (fun it => it.storeId == s.selectedStoreId)) now
          timestamp := none }
      let s1 := { s with
        db := result.1
        stockItems := updatedItems
        sellingStartedStores := s.sellingStartedStores ++ [s.selectedStoreId]
        storedStockItems := updatedItems
        storedSellingStartedStores := s.sellingStartedStores ++ [s.selectedStoreId] }
      let s2 :=
        if s1.pwa.networkStatus = NetworkStatus.offline then
          { s1 with pwa := addPendingOperation startOp now s1.pwa }
        else s1
      { s2 with toasts := s2.toasts ++ [Toast.sellingStarted] }
    else
      { s with db := result.1, toasts := s.toasts ++ [Toast.errorStartSelling] }

end Manager

/-- The concrete part_002 state used for C7: store "1" already has an
active session for today and its only item was sold down from initial
stock 10 to a current stock of 3, both locally and in `store_stocks`. -/
def sellingEx : Manager.ControlState :=
  { db := [ { storeId := "1", stockItemId := "A", quantity := 3
              isActive := true, sellingDate := "2025-01-02" } ]
    stockItems := [ { id := "A", name := "Iced Coffee", currentStock := 3
                      minimumStock := 1, initialStock := 10, storeId := "1" } ]
    sellingStartedStores := ["1"]
    selectedStoreId := "1"
    today := "2025-01-02"
    branchId := "1"
    pwa := { networkStatus := NetworkStatus.online, pendingOperations := []
             storedOps := [], toasts := [] }
    storedStockItems := []
    storedSellingStartedStores := ["1"]
    toasts := [] }

/-- C1: the claim requires the reconciler to drain entry-by-entry and, when
the remote interface fails on entry k, to leave entries k..N queued.  The
code has no remote interface at all: on a concrete online state whose queue
holds two stamped entries, `processPendingOperations` empties the whole
queue in one batch and reports sync success, so for a remote that fails on
entry 1 the required surviving entries 1..2 are dropped. -/
theorem C1_reconciler_batch_clears :
    (processPendingOperations
      { networkStatus := NetworkStatus.online
        pendingOperations := [stampOp sampleOp1 5, stampOp sampleOp2 6]
        storedOps := [stampOp sampleOp1 5, stampOp sampleOp2 6]
        toasts := [] }).pendingOperations = [] ∧
    (processPendingOperations
      { networkStatus := NetworkStatus.online
        pendingOperations := [stampOp sampleOp1 5, stampOp sampleOp2 6]
        storedOps := [stampOp sampleOp1 5, stampOp sampleOp2 6]
        toasts := [] }).toasts = [Toast.syncComplete 2] := by
  constructor <;> rfl

/-- C6: enqueueing mirrors the full queue into the durable store, so
re-reading the store fresh (a page reload) after an enqueue reproduces the
exact provider state, and draining after the reload yields the same final
state as draining without it. -/
theorem C6_enqueue_reload_roundtrip (op : PendingOp) (now : Nat) (s : PwaState) :
    reloadPwa (addPendingOperation op now s) = addPendingOperation op now s ∧
    processPendingOperations (reloadPwa (addPendingOperation op now s)) =
      processPendingOperations (addPendingOperation op now s) := by
  have h : reloadPwa (addPendingOperation op now s) = addPendingOperation op now s := by
    simp [reloadPwa, addPendingOperation]
  exact ⟨h, by rw [h]⟩

/-- C9: `addPendingOperation` appends exactly one entry at the tail — the
given operation with the enqueue timestamp stamped over any top-level
timestamp the caller supplied — leaving every previously queued entry and
their order unchanged (the old queue is literally the prefix), and the
durable mirror holds the same queue. -/
theorem C9_addPendingOperation_appends (op : PendingOp) (now : Nat) (s : PwaState) :
    ∃ e : PendingOp,
      (addPendingOperation op now s).pendingOperations = s.pendingOperations ++ [e] ∧
      e.type = op.type ∧ e.data = op.data ∧ e.timestamp = some now ∧
      (addPendingOperation op now s).storedOps = s.pendingOperations ++ [e] ∧
      (addPendingOperation op now s).networkStatus = s.networkStatus ∧
      (addPendingOperation op now s).toasts = s.toasts := by
  exact ⟨stampOp op now, rfl, rfl, rfl, rfl, rfl, rfl, rfl⟩

/-- C10: calling the reconciler while offline, or with an empty queue, is a
no-op: the whole provider state — queue, durable mirror and toast log — is
returned unchanged. -/
theorem C10_process_noop (s : PwaState)
    (h : s.networkStatus = NetworkStatus.offline ∨ s.pendingOperations = []) :
    processPendingOperations s = s := by
  simp [processPendingOperations, h]

/-- C10 witness: a concrete offline state with a non-empty queue is left
untouched by the reconciler. -/
theorem C10_process_noop_witness :
    processPendingOperations
      { networkStatus := NetworkStatus.offline
        pendingOperations := [stampOp sampleOp1 5]
        storedOps := [stampOp sampleOp1 5]
        toasts := [] } =
      { networkStatus := NetworkStatus.offline
        pendingOperations := [stampOp sampleOp1 5]
        storedOps := [stampOp sampleOp1 5]
        toasts := [] } :=
  C10_process_noop _ (Or.inl rfl)

/-- C5: checkout on an empty cart, or while the holiday-mode flag is set,
returns the corresponding error toast (TransactionBlocked respectively
EmptyCart) and mutates nothing: menu stock, persisted transactions, cart,
persisted menu and the pending-operation queue are all unchanged. -/
theorem C5_checkout_blocked (now : Nat) (s : PosState)
    (h : s.isHolidayMode = true ∨ s.cart = []) :
    (handleCheckout now s).menuItems = s.menuItems ∧
    (handleCheckout now s).transactions = s.transactions ∧
    (handleCheckout now s).cart = s.cart ∧
    (handleCheckout now s).storedMenuItems = s.storedMenuItems ∧
    (handleCheckout now s).pwa = s.pwa ∧
    (s.isHolidayMode = true →
      (handleCheckout now s).toasts = s.toasts ++ [Toast.transactionBlocked]) ∧
    (s.isHolidayMode = false → s.cart = [] →
      (handleCheckout now s).toasts = s.toasts ++ [Toast.emptyCart]) := by
  by_cases hh : s.isHolidayMode = true
  · simp [handleCheckout, hh]
  · have hc : s.cart = [] := h.resolve_left hh
    simp [handleCheckout, hh, hc]

/-- C5 witness: an empty-cart, non-holiday copy of the concrete state is
left unchanged by checkout apart from the EmptyCart toast. -/
theorem C5_checkout_blocked_witness :
    (handleCheckout 7 { posEx with cart := [] }).menuItems = { posEx with cart := [] }.menuItems ∧
    (handleCheckout 7 { posEx with cart := [] }).transactions = { posEx with cart := [] }.transactions ∧
    (handleCheckout 7 { posEx with cart := [] }).cart = { posEx with cart := [] }.cart ∧
    (handleCheckout 7 { posEx with cart := [] }).storedMenuItems = { posEx with cart := [] }.storedMenuItems ∧
    (handleCheckout 7 { posEx with cart := [] }).pwa = { posEx with cart := [] }.pwa ∧
    ({ posEx with cart := [] }.isHolidayMode = true →
      (handleCheckout 7 { posEx with cart := [] }).toasts =
        { posEx with cart := [] }.toasts ++ [Toast.transactionBlocked]) ∧
    ({ posEx with cart := [] }.isHolidayMode = false → { posEx with cart := [] }.cart = [] →
      (handleCheckout 7 { posEx with cart := [] }).toasts =
        { posEx with cart := [] }.toasts ++ [Toast.emptyCart]) :=
  C5_checkout_blocked 7 { posEx with cart := [] } (Or.inr rfl)

/-- C8: a successful checkout performed while offline appends exactly two
pending operations at the tail of the queue — a create-transaction entry
carrying the cart snapshot, then an update-stock entry carrying the cart's
(id, quantity) pairs — in that order, prior entries untouched; a checkout
performed while online leaves the whole PWA state unchanged. -/
theorem C8_offline_checkout_enqueues_two (now : Nat) (s : PosState)
    (hh : s.isHolidayMode = false) (hc : s.cart ≠ []) :
    (s.pwa.networkStatus = NetworkStatus.offline →
      ∃ tx : Transaction, tx.items = s.cart ∧
        (handleCheckout now s).pwa.pendingOperations =
          s.pwa.pendingOperations ++
            [ { type := "CREATE_TRANSACTION", data := OpData.transactionData tx
                timestamp := some now }
            , { type := "UPDATE_STOCK"
                data := OpData.stockUpdate (s.cart.map (fun c => (c.id, c.quantity)))
                timestamp := some now } ]) ∧
    (s.pwa.networkStatus = NetworkStatus.online →
      (handleCheckout now s).pwa = s.pwa) := by
  constructor
  · intro hoff
    refine ⟨{ id := "TR-" ++ toString now, items := s.cart, total := calculateTotal s
              paymentMethod := s.paymentMethod, timestamp := now
              storeId := s.storeId, cashierId := s.cashierId }, rfl, ?_⟩
    simp [handleCheckout, hh, hc, hoff, addPendingOperation, stampOp]
  · intro hon
    have hoff : ¬ s.pwa.networkStatus = NetworkStatus.offline := by
      rw [hon]; intro hcontra; cases hcontra
    simp [handleCheckout, hh, hc, hoff]

/-- C8 witness: on the concrete offline state, checkout appends the two
expected entries, and on the online state it leaves the queue alone. -/
theorem C8_offline_checkout_enqueues_two_witness :
    (posExOffline.pwa.networkStatus = NetworkStatus.offline →
      ∃ tx : Transaction, tx.items = posExOffline.cart ∧
        (handleCheckout 7 posExOffline).pwa.pendingOperations =
          posExOffline.pwa.pendingOperations ++
            [ { type := "CREATE_TRANSACTION"
                data := OpData.transactionData tx
                timestamp := some 7 }
            , { type := "UPDATE_STOCK"
                data := OpData.stockUpdate (posExOffline.cart.map (fun c => (c.id, c.quantity)))
                timestamp := some 7 } ]) ∧
    (posExOffline.pwa.networkStatus = NetworkStatus.online →
      (handleCheckout 7 posExOffline).pwa = posExOffline.pwa) :=
  C8_offline_checkout_enqueues_two 7 posExOffline rfl (by decide)

/-- Zipping a list with its own image pairs each element with its image. -/
theorem zip_self_map {α β : Type} (f : α → β) :
    ∀ l : List α, l.zip (l.map f) = l.map (fun a => (a, f a))
  | [] => rfl
  | a :: t => by simp [zip_self_map f t]

/-- On a cart whose line ids are pairwise distinct, `find?` on an id held
by a member returns exactly that member. -/
theorem cart_find_eq {cart : List CartItem} {c : CartItem} {tid : String}
    (hnd : (cart.map (fun x => x.id)).Nodup) (hmem : c ∈ cart) (hid : c.id = tid) :
    cart.find? (fun x => x.id == tid) = some c := by
  induction cart with
  | nil => exact absurd hmem (List.not_mem_nil c)
  | cons a t ih =>
    simp only [List.map_cons, List.nodup_cons] at hnd
    rcases List.mem_cons.mp hmem with rfl | hmemt
    · have hpos : (c.id == tid) = true := beq_iff_eq.mpr hid
      exact List.find?_cons_of_pos t hpos
    · have hane : ¬ ((a.id == tid) = true) := by
        intro h
        have ha : a.id ∈ t.map (fun x => x.id) := by
          rw [beq_iff_eq.mp h, ← hid]
          exact List.mem_map_of_mem (fun x => x.id) hmemt
        exact hnd.1 ha
      have hstep : List.find? (fun x => x.id == tid) (a :: t) =
          List.find? (fun x => x.id == tid) t := List.find?_cons_of_neg t hane
      rw [hstep]
      exact ih hnd.2 hmemt

/-- C2: checkout on a non-empty cart in a non-holiday store appends exactly
one transaction whose line items are the cart snapshot and whose total is
`calculateTotal`; positionally, every menu item matched by a cart line has
its stock decremented by exactly that line's quantity while every other
menu item is unchanged; and the cart is empty afterward. -/
theorem C2_checkout_success (now : Nat) (s : PosState)
    (hh : s.isHolidayMode = false) (hc : s.cart ≠ [])
    (hnd : (s.cart.map (fun c => c.id)).Nodup) :
    ∃ tx : Transaction,
      (handleCheckout now s).transactions = s.transactions ++ [tx] ∧
      tx.items = s.cart ∧
      tx.total = calculateTotal s ∧
      (handleCheckout now s).menuItems.length = s.menuItems.length ∧
      (∀ p ∈ s.menuItems.zip (handleCheckout now s).menuItems,
        (∀ c ∈ s.cart, c.id = p.1.id →
          p.2.stock = p.1.stock - c.quantity ∧ p.2.id = p.1.id) ∧
        ((∀ c ∈ s.cart, c.id ≠ p.1.id) → p.2 = p.1)) ∧
      (handleCheckout now s).cart = [] := by
  have hh' : ¬ (s.isHolidayMode = true) := by simp [hh]
  have hmenu : (handleCheckout now s).menuItems =
      s.menuItems.map (checkoutStockUpdate s.cart) := by
    cases hnet : s.pwa.networkStatus <;> simp [handleCheckout, hh', hc, hnet]
  have htx : (handleCheckout now s).transactions =
      s.transactions ++
        [{ id := "TR-" ++ toString now, items := s.cart, total := calculateTotal s
           paymentMethod := s.paymentMethod, timestamp := now
           storeId := s.storeId, cashierId := s.cashierId }] := by
    cases hnet : s.pwa.networkStatus <;> simp [handleCheckout, hh', hc, hnet]
  have hcart : (handleCheckout now s).cart = [] := by
    cases hnet : s.pwa.networkStatus <;> simp [handleCheckout, hh', hc, hnet]
  refine ⟨_, htx, rfl, rfl, ?_, ?_, hcart⟩
  · rw [hmenu, List.length_map]
  · rw [hmenu, zip_self_map]
    intro p hp
    rcases List.mem_map.mp hp with ⟨m, hm, rfl⟩
    constructor
    · intro c hcm hcid
      have hfind : s.cart.find? (fun x => x.id == m.id) = some c := cart_find_eq hnd hcm hcid
      constructor
      · simp [checkoutStockUpdate, hfind]
      · simp [checkoutStockUpdate, hfind]
    · intro hnone
      have hfind : s.cart.find? (fun x => x.id == m.id) = none := by
        rw [List.find?_eq_none]
        intro c hcm
        simpa using hnone c hcm
      simp [checkoutStockUpdate, hfind]

/-- C2 witness: the concrete one-line cart state, checked out at time 7,
appends one transaction and the conclusion holds as instantiated. -/
theorem C2_checkout_success_witness :
    ∃ tx : Transaction,
      (handleCheckout 7 posEx).transactions = posEx.transactions ++ [tx] ∧
      tx.items = posEx.cart ∧
      tx.total = calculateTotal posEx ∧
      (handleCheckout 7 posEx).menuItems.length = posEx.menuItems.length ∧
      (∀ p ∈ posEx.menuItems.zip (handleCheckout 7 posEx).menuItems,
        (∀ c ∈ posEx.cart, c.id = p.1.id →
          p.2.stock = p.1.stock - c.quantity ∧ p.2.id = p.1.id) ∧
        ((∀ c ∈ posEx.cart, c.id ≠ p.1.id) → p.2 = p.1)) ∧
      (handleCheckout 7 posEx).cart = [] :=
  C2_checkout_success 7 posEx rfl (by decide) (by decide)

/-- Neither cart handler touches the menu: only `setCart` (and toasts) are
called. -/
theorem applyCartOp_menuItems (s : PosState) (op : CartOp) :
    (applyCartOp s op).menuItems = s.menuItems := by
  cases op <;>
    simp only [applyCartOp, addToCart, updateCartItemQuantity, removeFromCart] <;>
    (repeat' split) <;> rfl

/-- `addToCart` with an item of the current menu preserves cart
well-formedness. -/
theorem cartOk_addToCart {s : PosState} {item : MenuItem}
    (hmem : item ∈ s.menuItems) (hok : cartOk s.menuItems s.cart) :
    cartOk s.menuItems (addToCart item s).cart := by
  obtain ⟨hnd, hbound⟩ := hok
  by_cases h0 : item.stock ≤ 0
  · have hcart : (addToCart item s).cart = s.cart := by simp [addToCart, h0]
    exact hcart ▸ ⟨hnd, hbound⟩
  · rcases hfind : s.cart.find? (fun c => c.id == item.id) with _ | ex
    · have hcart : (addToCart item s).cart = s.cart ++ [{ item with quantity := 1 }] := by
        simp [addToCart, h0, hfind]
      have hnotin : item.id ∉ s.cart.map (fun c => c.id) := by
        intro hin
        rcases List.mem_map.mp hin with ⟨c, hcm, hcid⟩
        have hno := List.find?_eq_none.mp hfind c hcm
        simp [hcid] at hno
      constructor
      · rw [hcart]
        simp only [List.map_append, List.map_cons, List.map_nil]
        rw [List.nodup_append]
        refine ⟨hnd, List.nodup_singleton _, ?_⟩
        intro b hb1 hb2
        simp only [List.mem_singleton] at hb2
        exact hnotin (hb2 ▸ hb1)
      · rw [hcart]
        intro c hc
        rcases List.mem_append.mp hc with hold | hnew
        · exact hbound c hold
        · simp only [List.mem_singleton] at hnew
          subst hnew
          refine ⟨item, hmem, rfl, ?_⟩
          show (1 : Int) ≤ item.stock
          omega
    · by_cases hq : item.stock ≤ ex.quantity
      · have hcart : (addToCart item s).cart = s.cart := by simp [addToCart, h0, hfind, hq]
        exact hcart ▸ ⟨hnd, hbound⟩
      · have hcart : (addToCart item s).cart =
            s.cart.map (fun c =>
              if c.id == item.id then { c with quantity := c.quantity + 1 } else c) := by
          simp [addToCart, h0, hfind, hq]
        constructor
        · rw [hcart, List.map_map]
          have hsame : (s.cart.map ((fun c => c.id) ∘ fun c =>
              if c.id == item.id then { c with quantity := c.quantity + 1 } else c)) =
              s.cart.map (fun c => c.id) := by
            apply List.map_congr_left
            intro c _
            simp only [Function.comp_apply]
            by_cases hcid : (c.id == item.id) = true
            · rw [if_pos hcid]
            · rw [if_neg hcid]
          rw [hsame]
          exact hnd
        · rw [hcart]
          intro c' hc'
          rcases List.mem_map.mp hc' with ⟨c, hcm, rfl⟩
          by_cases hcid : (c.id == item.id) = true
          · have hceq : c = ex := by
              have h1 := cart_find_eq hnd hcm (beq_iff_eq.mp hcid)
              rw [hfind] at h1
              exact (Option.some.inj h1).symm
            refine ⟨item, hmem, ?_, ?_⟩
            · rw [if_pos hcid]
              show item.id = c.id
              exact (beq_iff_eq.mp hcid).symm
            · rw [if_pos hcid]
              show c.quantity + 1 ≤ item.stock
              subst hceq
              omega
          · rw [if_neg hcid]
            exact hbound c hcm

/-- `updateCartItemQuantity` preserves cart well-formedness. -/
theorem cartOk_updateCartItemQuantity {s : PosState} (itemId : String) (q : Int)
    (hok : cartOk s.menuItems s.cart) :
    cartOk s.menuItems (updateCartItemQuantity itemId q s).cart := by
  obtain ⟨hnd, hbound⟩ := hok
  by_cases hq0 : q ≤ 0
  · have hcart : (updateCartItemQuantity itemId q s).cart =
        s.cart.filter (fun c => c.id != itemId) := by
      simp [updateCartItemQuantity, hq0, removeFromCart]
    constructor
    · rw [hcart]
      exact List.Nodup.sublist (List.Sublist.map _ (List.filter_sublist _)) hnd
    · rw [hcart]
      intro c hc
      exact hbound c (List.mem_of_mem_filter hc)
  · have hmapOk : ∀ m : MenuItem, m ∈ s.menuItems → (m.id == itemId) = true → q ≤ m.stock →
        cartOk s.menuItems (s.cart.map (fun c =>
          if c.id == itemId then { c with quantity := q } else c)) := by
      intro m hm hmid hqs
      constructor
      · rw [List.map_map]
        have hsame : (s.cart.map ((fun c => c.id) ∘ fun c =>
            if c.id == itemId then { c with quantity := q } else c)) =
            s.cart.map (fun c => c.id) := by
          apply List.map_congr_left
          intro c _
          simp only [Function.comp_apply]
          by_cases hcid : (c.id == itemId) = true
          · rw [if_pos hcid]
          · rw [if_neg hcid]
        rw [hsame]
        exact hnd
      · intro c' hc'
        rcases List.mem_map.mp hc' with ⟨c, hcm, rfl⟩
        by_cases hcid : (c.id == itemId) = true
        · refine ⟨m, hm, ?_, ?_⟩
          · rw [if_pos hcid]
            show m.id = c.id
            exact (beq_iff_eq.mp hmid).trans (beq_iff_eq.mp hcid).symm
          · rw [if_pos hcid]
            exact hqs
        · rw [if_neg hcid]
          exact hbound c hcm
    rcases hfindm : s.menuItems.find? (fun m => m.id == itemId) with _ | m
    · have hnomatch : ∀ c ∈ s.cart, (c.id == itemId) = false := by
        intro c hc
        obtain ⟨m, hm, hmid, _⟩ := hbound c hc
        have hno := List.find?_eq_none.mp hfindm m hm
        simp only [Bool.not_eq_true] at hno
        rw [beq_eq_false_iff_ne] at hno ⊢
        exact fun h => hno (hmid.trans h)
      have hmapid : s.cart.map (fun c =>
          if c.id == itemId then { c with quantity := q } else c) = s.cart := by
        conv_rhs => rw [← List.map_id s.cart]
        apply List.map_congr_left
        intro c hc
        simp [hnomatch c hc, id]
      have hcart : (updateCartItemQuantity itemId q s).cart = s.cart := by
        unfold updateCartItemQuantity
        rw [if_neg hq0, hfindm]
        exact hmapid
      exact hcart ▸ ⟨hnd, hbound⟩
    · by_cases hstock : m.stock < q
      · have hcart : (updateCartItemQuantity itemId q s).cart = s.cart := by
          simp [updateCartItemQuantity, hq0, hfindm, hstock]
        exact hcart ▸ ⟨hnd, hbound⟩
      · have hcart : (updateCartItemQuantity itemId q s).cart =
            s.cart.map (fun c => if c.id == itemId then { c with quantity := q } else c) := by
          simp [updateCartItemQuantity, hq0, hfindm, hstock]
        rw [hcart]
        have hpm := List.find?_some hfindm
        exact hmapOk m (List.mem_of_find?_eq_some hfindm) hpm (by omega)

/-- Folding a well-formed state through any admissible call sequence keeps
the cart well-formed and never changes the menu. -/
theorem cartOk_applyCartOps :
    ∀ (ops : List CartOp) (s : PosState),
      (∀ op ∈ ops, ∀ item : MenuItem, op = CartOp.add item → item ∈ s.menuItems) →
      cartOk s.menuItems s.cart →
      cartOk s.menuItems (applyCartOps s ops).cart ∧
        (applyCartOps s ops).menuItems = s.menuItems
  | [], _, _, hok => ⟨hok, rfl⟩
  | op :: rest, s, hadds, hok => by
    have hmenu : (applyCartOp s op).menuItems = s.menuItems := applyCartOp_menuItems s op
    have hok' : cartOk (applyCartOp s op).menuItems (applyCartOp s op).cart := by
      rw [hmenu]
      cases op with
      | add item =>
        exact cartOk_addToCart (hadds _ (List.mem_cons_self _ _) item rfl) hok
      | update itemId q => exact cartOk_updateCartItemQuantity itemId q hok
    have hadds' : ∀ op' ∈ rest, ∀ item : MenuItem,
        op' = CartOp.add item → item ∈ (applyCartOp s op).menuItems := by
      intro op' hop' item heq
      rw [hmenu]
      exact hadds op' (List.mem_cons_of_mem _ hop') item heq
    have hres := cartOk_applyCartOps rest (applyCartOp s op) hadds' hok'
    have hstep : applyCartOps s (op :: rest) = applyCartOps (applyCartOp s op) rest := rfl
    rw [hstep]
    exact ⟨hmenu ▸ hres.1, hres.2.trans hmenu⟩

/-- C3: starting from an empty cart, after every prefix of a sequence of
addToCart / updateQuantity calls (each add passing an item of the menu,
which these calls never modify), every cart line's quantity is bounded by
the stock of its menu item; and the calls that would exceed stock — adding
an out-of-stock item, adding past an existing line's stock bound, or
updating to a quantity above stock — leave the cart exactly as it was. -/
theorem C3_cart_bounded_by_stock (s : PosState) (ops : List CartOp)
    (hempty : s.cart = [])
    (hadds : ∀ op ∈ ops, ∀ item : MenuItem, op = CartOp.add item → item ∈ s.menuItems) :
    (∀ n : Nat, ∀ c ∈ (applyCartOps s (ops.take n)).cart,
      ∃ m ∈ s.menuItems, m.id = c.id ∧ c.quantity ≤ m.stock) ∧
    (applyCartOps s ops).menuItems = s.menuItems ∧
    (∀ (t : PosState) (item : MenuItem),
      item.stock ≤ 0 → (addToCart item t).cart = t.cart) ∧
    (∀ (t : PosState) (item : MenuItem) (ex : CartItem),
      t.cart.find? (fun c => c.id == item.id) = some ex →
      item.stock ≤ ex.quantity → (addToCart item t).cart = t.cart) ∧
    (∀ (t : PosState) (itemId : String) (q : Int) (m : MenuItem),
      0 < q → t.menuItems.find? (fun x => x.id == itemId) = some m →
      m.stock < q → (updateCartItemQuantity itemId q t).cart = t.cart) := by
  have hok0 : cartOk s.menuItems s.cart := by
    refine ⟨?_, ?_⟩
    · rw [hempty]; exact List.nodup_nil
    · rw [hempty]; intro c hc; exact absurd hc (List.not_mem_nil c)
  refine ⟨?_, (cartOk_applyCartOps ops s hadds hok0).2, ?_, ?_, ?_⟩
  · intro n
    have htake : ∀ op ∈ ops.take n, ∀ item : MenuItem,
        op = CartOp.add item → item ∈ s.menuItems := by
      intro op hop item heq
      exact hadds op (List.take_subset n ops hop) item heq
    exact (cartOk_applyCartOps (ops.take n) s htake hok0).1.2
  · intro t item h0
    simp [addToCart, h0]
  · intro t item ex hfind hle
    by_cases h0 : item.stock ≤ 0
    · simp [addToCart, h0]
    · simp [addToCart, h0, hfind, hle]
  · intro t itemId q m hq hfindm hst
    have hq0 : ¬ q ≤ 0 := by omega
    simp [updateCartItemQuantity, hq0, hfindm, hst]

/-- C3 witness: the bound and the frame conjuncts, instantiated on the
concrete empty-cart state and call sequence. -/
theorem C3_cart_bounded_by_stock_witness :
    (∀ n : Nat, ∀ c ∈ (applyCartOps posExC3 (opsExC3.take n)).cart,
      ∃ m ∈ posExC3.menuItems, m.id = c.id ∧ c.quantity ≤ m.stock) ∧
    (applyCartOps posExC3 opsExC3).menuItems = posExC3.menuItems ∧
    (∀ (t : PosState) (item : MenuItem),
      item.stock ≤ 0 → (addToCart item t).cart = t.cart) ∧
    (∀ (t : PosState) (item : MenuItem) (ex : CartItem),
      t.cart.find? (fun c => c.id == item.id) = some ex →
      item.stock ≤ ex.quantity → (addToCart item t).cart = t.cart) ∧
    (∀ (t : PosState) (itemId : String) (q : Int) (m : MenuItem),
      0 < q → t.menuItems.find? (fun x => x.id == itemId) = some m →
      m.stock < q → (updateCartItemQuantity itemId q t).cart = t.cart) :=
  C3_cart_bounded_by_stock posExC3 opsExC3 rfl (by
    intro op hop item heq
    fin_cases hop <;> simp_all [posExC3, posEx, opsExC3])

/-- C4: whatever the prior stock values, after `handleStartSelling` every
stock item's current stock equals its configured initial stock, and after
`handleEndSelling` every one equals 0; both handlers keep the same items
(ids and configured initial stocks, positionally). -/
theorem C4_start_end_selling_stock (now : Nat) (s : StockControlState) :
    (∀ it ∈ (handleStartSelling now s).stockItems, it.currentStock = it.initialStock) ∧
    (handleStartSelling now s).stockItems.map (fun it => (it.id, it.initialStock)) =
      s.stockItems.map (fun it => (it.id, it.initialStock)) ∧
    (∀ it ∈ (handleEndSelling now s).stockItems, it.currentStock = 0) ∧
    (handleEndSelling now s).stockItems.map (fun it => (it.id, it.initialStock)) =
      s.stockItems.map (fun it => (it.id, it.initialStock)) := by
  have hstart : (handleStartSelling now s).stockItems =
      s.stockItems.map (fun it => { it with currentStock := it.initialStock }) := by
    cases hnet : s.pwa.networkStatus <;> simp [handleStartSelling, hnet]
  have hend : (handleEndSelling now s).stockItems =
      s.stockItems.map (fun it => { it with currentStock := 0 }) := by
    cases hnet : s.pwa.networkStatus <;> simp [handleEndSelling, hnet]
  refine ⟨?_, ?_, ?_, ?_⟩
  · rw [hstart]
    intro it hit
    rcases List.mem_map.mp hit with ⟨a, _, rfl⟩
    rfl
  · rw [hstart, List.map_map]
    rfl
  · rw [hend]
    intro it hit
    rcases List.mem_map.mp hit with ⟨a, _, rfl⟩
    rfl
  · rw [hend, List.map_map]
    rfl

/-- C4 witness: the conclusion instantiated on the concrete state with its
stale prior values. -/
theorem C4_start_end_selling_stock_witness :
    (∀ it ∈ (handleStartSelling 3 stockEx).stockItems, it.currentStock = it.initialStock) ∧
    (handleStartSelling 3 stockEx).stockItems.map (fun it => (it.id, it.initialStock)) =
      stockEx.stockItems.map (fun it => (it.id, it.initialStock)) ∧
    (∀ it ∈ (handleEndSelling 3 stockEx).stockItems, it.currentStock = 0) ∧
    (handleEndSelling 3 stockEx).stockItems.map (fun it => (it.id, it.initialStock)) =
      stockEx.stockItems.map (fun it => (it.id, it.initialStock)) :=
  C4_start_end_selling_stock 3 stockEx

namespace Manager

/-- `rowMatches` decides exactly key equality with (storeId, itemId, today). -/
theorem rowMatches_iff {sid iid d : String} {r : StoreStock} :
    rowMatches sid iid d r = true ↔
      r.storeId = sid ∧ r.stockItemId = iid ∧ r.sellingDate = d := by
  simp [rowMatches, Bool.and_eq_true, beq_iff_eq, and_assoc]

/-- Under key uniqueness, at most one row matches a `maybeSingle` query. -/
theorem filter_matches_length_le_one (sid iid d : String) :
    ∀ {db : List StoreStock}, dbUnique db →
      (db.filter (rowMatches sid iid d)).length ≤ 1 := by
  intro db
  induction db with
  | nil => intro _; simp
  | cons r t ih =>
    intro hu
    rw [dbUnique, List.pairwise_cons] at hu
    obtain ⟨hr, hut⟩ := hu
    by_cases hm : rowMatches sid iid d r = true
    · have hnil : t.filter (rowMatches sid iid d) = [] := by
        rw [List.filter_eq_nil_iff]
        intro b hb hmb
        have h1 := rowMatches_iff.mp hm
        have h2 := rowMatches_iff.mp hmb
        exact hr b hb ⟨h1.1.trans h2.1.symm, h1.2.1.trans h2.2.1.symm, h1.2.2.trans h2.2.2.symm⟩
      simp [List.filter_cons, hm, hnil]
    · simp only [List.filter_cons, hm, Bool.false_eq_true, if_false]
      exact ih hut

/-- Filtering for the other stores' rows commutes with a row map that keeps
store ids and fixes every row of another store. -/
theorem filter_storeId_map (sid : String) (f : StoreStock → StoreStock)
    (hid : ∀ r, (f r).storeId = r.storeId)
    (hfix : ∀ r, r.storeId ≠ sid → f r = r) :
    ∀ db : List StoreStock,
      (db.map f).filter (fun r => r.storeId != sid) = db.filter (fun r => r.storeId != sid)
  | [] => rfl
  | r :: t => by
    by_cases hr : r.storeId = sid
    · have h1 : ((f r).storeId != sid) = false := by simp [hid r, hr]
      have h2 : (r.storeId != sid) = false := by simp [hr]
      simp only [List.map_cons, List.filter_cons, h1, h2, Bool.false_eq_true, if_false]
      exact filter_storeId_map sid f hid hfix t
    · have h1 : ((f r).storeId != sid) = true := by simp [hid r, hr]
      have h2 : (r.storeId != sid) = true := by simp [hr]
      simp only [List.map_cons, List.filter_cons, h1, h2, if_true]
      rw [hfix r hr, filter_storeId_map sid f hid hfix t]

/-- Under key uniqueness, the per-item upsert never hits the `maybeSingle`
multiple-rows error, keeps the keys unique, and leaves every row of the
other stores untouched. -/
theorem upsert_preserves (sid d : String) (item : StockItem) {db : List StoreStock}
    (hu : dbUnique db) :
    ∃ db2, upsertStoreStock sid d item db = some db2 ∧ dbUnique db2 ∧
      db2.filter (fun r => r.storeId != sid) = db.filter (fun r => r.storeId != sid) := by
  have hlen := filter_matches_length_le_one sid item.id d hu
  have h2 : ¬ (2 ≤ (db.filter (rowMatches sid item.id d)).length) := by omega
  simp only [upsertStoreStock]
  rw [if_neg h2]
  by_cases h1 : (db.filter (rowMatches sid item.id d)).length = 1
  · rw [if_pos h1]
    refine ⟨_, rfl, ?_, ?_⟩
    · have hkeep : ∀ a b : StoreStock, ¬ sameKey a b →
          ¬ sameKey
            (if rowMatches sid item.id d a then
              { a with quantity := item.initialStock, isActive := true } else a)
            (if rowMatches sid item.id d b then
              { b with quantity := item.initialStock, isActive := true } else b) := by
        intro a b hab hk
        apply hab
        by_cases ha : rowMatches sid item.id d a = true <;>
          by_cases hb : rowMatches sid item.id d b = true <;>
          · first
            | (rw [if_pos ha, if_pos hb] at hk; exact hk)
            | (rw [if_pos ha, if_neg hb] at hk; exact hk)
            | (rw [if_neg ha, if_pos hb] at hk; exact hk)
            | (rw [if_neg ha, if_neg hb] at hk; exact hk)
      exact List.Pairwise.map _ hkeep hu
    · apply filter_storeId_map
      · intro r
        by_cases hm : rowMatches sid item.id d r = true
        · rw [if_pos hm]
        · rw [if_neg hm]
      · intro r hrs
        rw [if_neg]
        intro hm
        exact hrs (rowMatches_iff.mp hm).1
  · rw [if_neg h1]
    have h0 : (db.filter (rowMatches sid item.id d)).length = 0 := by omega
    have hnil : db.filter (rowMatches sid item.id d) = [] := List.length_eq_zero.mp h0
    refine ⟨_, rfl, ?_, ?_⟩
    · rw [dbUnique, List.pairwise_append]
      refine ⟨hu, List.pairwise_singleton _ _, ?_⟩
      intro a ha b hb
      simp only [List.mem_singleton] at hb
      subst hb
      intro hk
      have hmatch : rowMatches sid item.id d a = true :=
        rowMatches_iff.mpr ⟨hk.1, hk.2.1, hk.2.2⟩
      exact (List.filter_eq_nil_iff.mp hnil a ha) hmatch
    · rw [List.filter_append]
      simp

/-- Under key uniqueness, the whole start-selling loop succeeds, keeps keys
unique, and leaves the other stores' rows untouched. -/
theorem startSellingLoop_ok (sid d : String) :
    ∀ (items : List StockItem) (db : List StoreStock), dbUnique db →
      (startSellingLoop sid d items db).2 = true ∧
      dbUnique (startSellingLoop sid d items db).1 ∧
      (startSellingLoop sid d items db).1.filter (fun r => r.storeId != sid) =
        db.filter (fun r => r.storeId != sid)
  | [], _, hu => ⟨rfl, hu, rfl⟩
  | item :: rest, db, hu => by
    obtain ⟨db2, heq, hu2, hfil⟩ := upsert_preserves sid d item hu
    have hstep : startSellingLoop sid d (item :: rest) db = startSellingLoop sid d rest db2 := by
      simp [startSellingLoop, heq]
    rw [hstep]
    obtain ⟨h1, h2, h3⟩ := startSellingLoop_ok sid d rest db2 hu2
    exact ⟨h1, h2, h3.trans hfil⟩

end Manager

/-- C7 counterexample: store "1" is already active with current stock 3,
yet calling `handleStartSelling` again is not a no-op-with-warning — it
resets the store's current stock (locally and in the `store_stocks` row)
back to the initial 10 and emits the ordinary success toast. -/
theorem C7_counterexample_already_active :
    sellingEx.sellingStartedStores = ["1"] ∧
    sellingEx.stockItems.map (fun it => it.currentStock) = [3] ∧
    sellingEx.db.map (fun r => r.quantity) = [3] ∧
    (Manager.handleStartSelling 9 sellingEx).stockItems.map (fun it => it.currentStock) = [10] ∧
    (Manager.handleStartSelling 9 sellingEx).db.map (fun r => r.quantity) = [10] ∧
    (Manager.handleStartSelling 9 sellingEx).toasts = [Toast.sellingStarted] := by
  refine ⟨rfl, rfl, rfl, ?_, ?_, ?_⟩ <;> rfl

/-- C7 amended: with a store selected and at most one `store_stocks` row
per key, calling `handleStartSelling` for a store whose session is already
active creates no duplicate session row (keys stay unique) and touches no
other store's rows; but instead of a warning no-op it re-initialises every
current stock of the selected store to the configured initial stock and
emits the ordinary success toast. -/
theorem C7_amended_start_selling (now : Nat) (s : Manager.ControlState)
    (hsel : s.selectedStoreId ≠ "")
    (hunique : Manager.dbUnique s.db)
    (hactive : s.selectedStoreId ∈ s.sellingStartedStores) :
    Manager.dbUnique (Manager.handleStartSelling now s).db ∧
    (Manager.handleStartSelling now s).db.filter (fun r => r.storeId != s.selectedStoreId) =
      s.db.filter (fun r => r.storeId != s.selectedStoreId) ∧
    (∀ it ∈ (Manager.handleStartSelling now s).stockItems,
      it.currentStock = it.initialStock) ∧
    (Manager.handleStartSelling now s).sellingStartedStores =
      s.sellingStartedStores ++ [s.selectedStoreId] ∧
    (Manager.handleStartSelling now s).toasts = s.toasts ++ [Toast.sellingStarted] := by
  obtain ⟨hok, hu2, hfil⟩ := Manager.startSellingLoop_ok s.selectedStoreId s.today
    (s.stockItems.map (fun it =>
      { it with currentStock := it.initialStock, storeId := s.selectedStoreId })) s.db hunique
  have hdb : (Manager.handleStartSelling now s).db =
      (Manager.startSellingLoop s.selectedStoreId s.today
        (s.stockItems.map (fun it =>
          { it with currentStock := it.initialStock, storeId := s.selectedStoreId })) s.db).1 := by
    cases hnet : s.pwa.networkStatus <;>
      simp [Manager.handleStartSelling, hsel, hok, hnet]
  have hitems : (Manager.handleStartSelling now s).stockItems =
      s.stockItems.map (fun it =>
        { it with currentStock := it.initialStock, storeId := s.selectedStoreId }) := by
    cases hnet : s.pwa.networkStatus <;>
      simp [Manager.handleStartSelling, hsel, hok, hnet]
  refine ⟨?_, ?_, ?_, ?_, ?_⟩
  · rw [hdb]; exact hu2
  · rw [hdb]; exact hfil
  · rw [hitems]
    intro it hit
    rcases List.mem_map.mp hit with ⟨a, _, rfl⟩
    rfl
  · cases hnet : s.pwa.networkStatus <;>
      simp [Manager.handleStartSelling, hsel, hok, hnet]
  · cases hnet : s.pwa.networkStatus <;>
      simp [Manager.handleStartSelling, hsel, hok, hnet]

/-- C7 witness: the amended conclusion instantiated on the concrete
already-active store state. -/
theorem C7_amended_start_selling_witness :
    Manager.dbUnique (Manager.handleStartSelling 9 sellingEx).db ∧
    (Manager.handleStartSelling 9 sellingEx).db.filter
        (fun r => r.storeId != sellingEx.selectedStoreId) =
      sellingEx.db.filter (fun r => r.storeId != sellingEx.selectedStoreId) ∧
    (∀ it ∈ (Manager.handleStartSelling 9 sellingEx).stockItems,
      it.currentStock = it.initialStock) ∧
    (Manager.handleStartSelling 9 sellingEx).sellingStartedStores =
      sellingEx.sellingStartedStores ++ [sellingEx.selectedStoreId] ∧
    (Manager.handleStartSelling 9 sellingEx).toasts =
      sellingEx.toasts ++ [Toast.sellingStarted] :=
  C7_amended_start_selling 9 sellingEx (by decide)
    (by rw [Manager.dbUnique]; exact List.pairwise_singleton _ _) (by decide)

